import Mathlib

set_option linter.unusedSectionVars false

/-!
Shallow embedding of `connectomics/data/utils/data_transform.py`:
distance-transform based energy encodings for instance/semantic label maps,
the energy quantizer, and the quantized-energy decoder.

Machine floats are modelled by exact arithmetic: `ℚ` for the purely rational
computations (bin edges, quantization) and `ℝ` for computations involving
square roots, `tanh`, `exp` and real powers.  Arrays are modelled as functions
out of finite index types; fallible code returns `Except`.
-/

namespace DataTransform

/-- Error outcomes of the Python code: a failed `assert`, or a shape/value
error raised by an array operation (`ValueError`). -/
inductive Err where
  | assertionError
  | valueError
  deriving DecidableEq

/-! ## Energy quantization (`energy_quantize`) -/

/-- Bin edges built by `energy_quantize`: `[-1.0, 0/L, 1/L, …, (L-1)/L, 1.1]`. -/
def qBins (α : Type) [LinearOrderedField α] (levels : ℕ) : List α :=
  -1 :: ((List.range levels).map (fun (i : ℕ) => (i : α) / (levels : α)) ++ [11 / 10])

/-- Computes `np.digitize(x, bins) - 1` for the increasing edge list `qBins`:
`np.digitize` with `right=False` returns the number of edges `≤ x`. -/
def energy_quantize {α : Type} [LinearOrderedField α] (x : α) (levels : ℕ := 10) : ℤ :=
  ((qBins α levels).countP (fun b => decide (b ≤ x)) : ℤ) - 1

/-! ## Quantized-energy decoding (`decode_quantize`) -/

/-- A `torch.Tensor` of logical shape `(B, C, *)`, with the trailing spatial
axes flattened to one axis of length `N` (as `_decode_quant_torch` itself does
via `view`); `data` indexed beyond the shape is irrelevant. -/
structure Tensor3 where
  B : ℕ
  C : ℕ
  N : ℕ
  data : ℕ → ℕ → ℕ → ℝ

/-- A `np.ndarray` of logical shape `(C, *)` with the spatial axes flattened
to one axis of length `N`. -/
structure Array2 where
  C : ℕ
  N : ℕ
  data : ℕ → ℕ → ℝ

/-- A Python value passed to `decode_quantize`: a torch tensor, a numpy
array, or some other object (which the `type(...)` assert rejects). -/
inductive PyVal where
  | torch (t : Tensor3)
  | numpy (a : Array2)
  | otherObject

/-- Tests `type(output) in [torch.Tensor, np.ndarray]`. -/
def PyVal.isTensorOrNdarray : PyVal → Bool
  | .torch _ => true
  | .numpy _ => true
  | .otherObject => false

/-- Result of decoding: a `(B, *)` tensor or a `(*,)` array of energies. -/
inductive DecodedEnergy where
  | torch (B N : ℕ) (data : ℕ → ℕ → ℝ)
  | numpy (N : ℕ) (data : ℕ → ℝ)

/-- First-occurrence arg-max over indices `0, …, C-1`
(`torch.argmax` / `np.argmax` along the class axis). -/
noncomputable def argmaxIdx (f : ℕ → ℝ) (C : ℕ) : ℕ :=
  (List.range C).foldl (fun best i => if f best < f i then i else best) 0

/-- The fixed decode bin centers `0.1 * (x - 1)` for `x = 0, …, 10`. -/
noncomputable def decodeBins (x : ℕ) : ℝ :=
  ((x : ℝ) - 1) / 10

/-- NumPy/torch broadcasting of one axis pair: the lengths must agree or one
of them must be 1. -/
def bcastDim (a b : ℕ) : Option ℕ :=
  if a = b then some a else if a = 1 then some b else if b = 1 then some a else none

/-- Index into an axis of length `dim` under broadcasting: a length-1 axis is
read at 0. -/
def bIdx (dim i : ℕ) : ℕ :=
  if dim = 1 then 0 else i

/-- Numerically the standard softmax along a length-`C` axis. -/
noncomputable def softmaxAx (f : ℕ → ℝ) (C : ℕ) (c : ℕ) : ℝ :=
  Real.exp (f c) / ∑ i ∈ Finset.range C, Real.exp (f i)

/-- Embeds `_decode_quant_torch`: `max` takes the arg-max class over axis 1 and
divides by the class-axis length; `mean` softmaxes over axis 1 and takes the
expectation against the 11 fixed bin centers, going through a
`(B,C,N) * (1,11,1)` broadcast and a `view(out_shape)`, either of which
raises when the class axis is incompatible with the 11 bins. -/
noncomputable def _decode_quant_torch (t : Tensor3) (mode : String) :
    Except Err DecodedEnergy :=
  if mode = "max" then
    .ok (.torch t.B t.N
      (fun b n => (argmaxIdx (fun c => t.data b c n) t.C : ℝ) / (t.C : ℝ)))
  else
    match bcastDim t.C 11 with
    | none => .error .valueError
    | some c2 =>
      if t.B * c2 * t.N = t.B * t.C * t.N then
        .ok (.torch t.B t.N (fun b n =>
          ∑ c ∈ Finset.range c2,
            softmaxAx (fun i => t.data b i n) t.C (bIdx t.C c) *
              decodeBins (bIdx 11 c)))
      else .error .valueError

/-- Embeds `_decode_quant_numpy`: as `_decode_quant_torch` but with the class axis
first and a `(C,N) * (11,1)` broadcast followed by `reshape(out_shape)`. -/
noncomputable def _decode_quant_numpy (a : Array2) (mode : String) :
    Except Err DecodedEnergy :=
  if mode = "max" then
    .ok (.numpy a.N
      (fun n => (argmaxIdx (fun c => a.data c n) a.C : ℝ) / (a.C : ℝ)))
  else
    match bcastDim a.C 11 with
    | none => .error .valueError
    | some c2 =>
      if c2 * a.N = a.C * a.N then
        .ok (.numpy a.N (fun n =>
          ∑ c ∈ Finset.range c2,
            softmaxAx (fun i => a.data i n) a.C (bIdx a.C c) *
              decodeBins (bIdx 11 c)))
      else .error .valueError

/-- Embeds `decode_quantize`: asserts the container type and the mode tag, then
dispatches on the container type. -/
noncomputable def decode_quantize (output : PyVal) (mode : String) :
    Except Err DecodedEnergy :=
  if ¬(output.isTensorOrNdarray = true) then .error .assertionError
  else if ¬(mode = "max" ∨ mode = "mean") then .error .assertionError
  else
    match output with
    | .torch t => _decode_quant_torch t mode
    | .numpy a => _decode_quant_numpy a mode
    | .otherObject => .error .assertionError

/-! ## Grids, external morphological primitives, and the EDT

The instance transforms work on 2D images and 3D volumes.  Both are modelled
as functions out of a finite index type `ι` equipped with integer coordinates
(and a raster enumeration); adjacency relations, structuring elements and
Euclidean distances are all derived from the coordinates, so one set of
definitions serves both dimensionalities. -/

/-- A finite pixel/voxel grid: per-cell integer coordinates and a raster
enumeration of the cells. -/
structure Grid (ι : Type) where
  coords : ι → List ℤ
  enum : ι → ℕ

variable {ι : Type} [Fintype ι] [DecidableEq ι]

/-- Coordinate differences between two cells. -/
def coordDeltas (g : Grid ι) (p q : ι) : List ℤ :=
  (List.zip (g.coords p) (g.coords q)).map (fun c => c.1 - c.2)

/-- Squared Euclidean distance between two cells with per-axis physical
spacing `res` (the `sampling` argument of `distance_transform_edt`). -/
def sqDistRes (g : Grid ι) (res : List ℚ) (p q : ι) : ℚ :=
  ((List.zip res (coordDeltas g p q)).map (fun c => (c.1 * (c.2 : ℚ)) ^ 2)).sum

/-- Unscaled squared Euclidean distance between two cells. -/
def sqEucl (g : Grid ι) (p q : ι) : ℤ :=
  ((coordDeltas g p q).map (fun c => c * c)).sum

/-- The background cells of a binary mask. -/
def bgCells (mask : ι → Bool) : Finset ι :=
  Finset.univ.filter (fun q => mask q = false)

/-- Minimum squared scaled distance from `p` to a background cell of `mask`
(0 if the mask has no background cell — a degenerate input on which the
external EDT's output is implementation-defined). -/
def minSqBG (g : Grid ι) (res : List ℚ) (mask : ι → Bool) (p : ι) : ℚ :=
  ((bgCells mask).inf
    (fun q => (sqDistRes g res p q : WithTop ℚ))).untop' 0

/-- Modelled from the spec: the external contract
`edt(mask, spacing)` (§6) — for every foreground cell, the Euclidean distance
to the nearest background cell scaled per-axis by `spacing`; `0` for
background cells (`scipy.ndimage.distance_transform_edt`). -/
noncomputable def edt (g : Grid ι) (mask : ι → Bool) (res : List ℚ) : ι → ℝ :=
  fun p => if mask p then Real.sqrt (minSqBG g res mask p : ℚ) else 0

/-- Orthogonal (connectivity-1) adjacency: 4-neighbourhood in 2D,
6-neighbourhood in 3D. -/
def adjOrtho (g : Grid ι) (p q : ι) : Bool :=
  ((coordDeltas g p q).map Int.natAbs).sum = 1

/-- Full (connectivity-ndim) adjacency: 8-neighbourhood in 2D,
26-neighbourhood in 3D. -/
def adjFull (g : Grid ι) (p q : ι) : Bool :=
  decide (p ≠ q) && decide (((coordDeltas g p q).map Int.natAbs).foldr max 0 ≤ 1)

/-- One step of region growing: add every cell of the region that is adjacent
to the current set. -/
def expandStep (adj : ι → ι → Bool) (inSet : ι → Bool) (s : Finset ι) : Finset ι :=
  s ∪ Finset.univ.filter (fun q => inSet q = true ∧ ∃ p ∈ s, adj p q = true)

/-- The connected component of `p` (within the cells satisfying `inSet`,
under adjacency `adj`), computed by saturating the region growing. -/
def component (adj : ι → ι → Bool) (inSet : ι → Bool) (p : ι) : Finset ι :=
  (expandStep adj inSet)^[Fintype.card ι] {p}

/-- Modelled from the spec: the external contract
`fillSmallHoles(mask, areaThreshold, connectivity)` (§6) — fills background
connected components (connectivity-1 adjacency) of area at most the threshold
(`skimage.morphology.remove_small_holes`). -/
def remove_small_holes (g : Grid ι) (mask : ι → Bool) (thr : ℕ) : ι → Bool :=
  fun p => mask p ||
    decide ((component (adjOrtho g) (fun q => !mask q) p).card ≤ thr)

/-- Modelled from the spec: the external contract
`erode(mask, structuringElementRadius)` (§6) — binary erosion by a disk
(2D) / ball (3D) structuring element, i.e. the integer offsets of squared
norm at most `r²`; cells beyond the border are treated as foreground
(`skimage.morphology.binary_erosion` with `disk(r)` / `ball(r)`). -/
def binary_erosion (g : Grid ι) (mask : ι → Bool) (r : ℕ) : ι → Bool :=
  fun p => decide (∀ q, sqEucl g p q ≤ (r : ℤ) * (r : ℤ) → mask q = true)

/-- Minimum unscaled squared distance from `p` to a background cell. -/
def minSqEuclBG (g : Grid ι) (mask : ι → Bool) (p : ι) : ℤ :=
  ((bgCells mask).inf (fun q => (sqEucl g p q : WithTop ℤ))).untop' 0

/-- Modelled from the spec: the external contract `skeletonize(mask)` (§6) —
a thin medial representation of the mask.  The skeletonization algorithm
itself is external to this repository; it is modelled as a deterministic
function of the mask (the ridge cells of the distance transform), which is
all the properties claimed about this code require of it. -/
def skeletonize (g : Grid ι) (mask : ι → Bool) : ι → Bool :=
  fun p => mask p && decide (∀ q, adjOrtho g p q = true → mask q = true →
    minSqEuclBG g mask q ≤ minSqEuclBG g mask p)

/-- Modelled from the spec: the external contract `gaussianBlur(mask, sigma)`
(§6) — a smoothed scalar field of the same shape (`skimage.filters.gaussian`),
modelled as a normalized convolution with a deterministic nonnegative kernel
truncated at `4·sigma` (the skimage default truncation). -/
def gaussian (g : Grid ι) (x : ι → ℚ) (sigma : ℚ) : ι → ℚ :=
  fun p =>
    let w : ι → ℚ := fun q => max 0 ((4 * sigma) ^ 2 - (sqEucl g p q : ℚ))
    let tot := ∑ q, w q
    if tot = 0 then x p else (∑ q, w q * x q) / tot

/-- Embeds `smooth_edge`: two rounds of (Gaussian blur, re-threshold at 0.5) on a
binary mask. -/
def smooth_edge (g : Grid ι) (binary : ι → Bool) (smooth_sigma : ℚ := 2)
    (smooth_threshold : ℚ := 1 / 2) : ι → Bool :=
  let round := fun (b : ι → Bool) (p : ι) =>
    decide (smooth_threshold <
      gaussian g (fun q => if b q then (1 : ℚ) else 0) smooth_sigma p)
  round (round binary)

/-- Modelled from the spec: the external contract
`labelConnectedComponents(mask)` (§6) — disjoint positive ids per maximal
connected same-valued nonzero blob (full connectivity), `0` unchanged, ids
assigned in raster order of each blob's first cell
(`skimage.measure.label`). -/
def label_cc (g : Grid ι) (label : ι → ℕ) : ι → ℕ :=
  let comp : ι → Finset ι := fun p =>
    component (fun a b => adjFull g a b && decide (label b = label a))
      (fun q => decide (label q = label p)) p
  let key : ι → ℕ := fun p => (((comp p).image g.enum).min).getD 0
  fun p =>
    if label p = 0 then 0
    else 1 + (((Finset.univ.filter (fun q => label q ≠ 0)).image key).filter
      (fun k => k < key p)).card

/-- Computes `np.unique`: the sorted list of distinct values of the array. -/
def npUnique (label : ι → ℕ) : List ℕ :=
  (Finset.univ.image label).sort (· ≤ ·)

/-- The instance ids the per-instance loop runs over: the sorted unique
values, with a leading `0` (background) dropped.  The result is `[]` exactly
in the all-background case, where the loop is skipped.  (On an empty array
`np.unique` is empty and the source's `indices[0]` would itself fail; the
empty grid is treated as all-background.) -/
def dtIndices (label : ι → ℕ) : List ℕ :=
  match npUnique label with
  | [] => []
  | v :: vs => if v = 0 then vs else v :: vs

/-- The `eps = 1e-6` regularizer. -/
noncomputable def eps : ℝ := 1 / 1000000

/-- Computes `boundary_edt.max()`: the largest EDT value on the grid.  EDT values are
nonnegative, so seeding the fold with 0 agrees with `np.max` on nonempty
grids. -/
noncomputable def edtMax (g : Grid ι) (mask : ι → Bool) (res : List ℚ) : ℝ :=
  (Finset.univ.toList.map (edt g mask res)).foldr max 0

/-! ## `distance_transform` -/

/-- One iteration of the per-instance loop of `distance_transform`: hole-fill
`label == idx`, optionally erode, accumulate the semantic mask, compute the
instance's EDT, normalize by its own maximum plus `eps`, and fuse the masked
energy into the running distance map by pointwise `max`. -/
noncomputable def dtStep (g : Grid ι) (label : ι → ℕ) (res : List ℚ)
    (erosion : ℕ) (st : (ι → ℝ) × (ι → ℕ)) (idx : ℕ) : (ι → ℝ) × (ι → ℕ) :=
  let temp2 :=
    let t := remove_small_holes g (fun p => decide (label p = idx)) 16
    if 0 < erosion then binary_erosion g t erosion else t
  let semantic := fun p => st.2 p + (if temp2 p then 1 else 0)
  let boundary_edt := edt g temp2 res
  let energy := fun p => boundary_edt p / (edtMax g temp2 res + eps)
  let distance := fun p => max (st.1 p) (energy p * (if temp2 p then (1 : ℝ) else 0))
  (distance, semantic)

/-- The body of `distance_transform` after relabel/padding, with the order of
the per-instance loop made explicit: fold the loop over `order`, then replace
the still-0 pixels of the distance map by `bg_value` (unless it is 0). -/
noncomputable def dtCoreOrd (g : Grid ι) (order : List ℕ) (label : ι → ℕ)
    (bg_value : ℝ) (res : List ℚ) (erosion : ℕ) : (ι → ℝ) × (ι → ℕ) :=
  let st := order.foldl (dtStep g label res erosion) (fun _ => 0, fun _ => 0)
  let distance :=
    if bg_value ≠ 0 then (fun p => if st.1 p = 0 then bg_value else st.1 p)
    else st.1
  (distance, st.2)

/-- The body of `distance_transform`, looping over the nonzero instance ids
in ascending order (as `np.unique` yields them). -/
noncomputable def dtCore (g : Grid ι) (label : ι → ℕ) (bg_value : ℝ)
    (res : List ℚ) (erosion : ℕ) : (ι → ℝ) × (ι → ℕ) :=
  dtCoreOrd g (dtIndices label) label bg_value res erosion

/-- The 2D pixel grid of an `n × m` image. -/
def grid2 (n m : ℕ) : Grid (Fin n × Fin m) :=
  ⟨fun p => [(p.1 : ℤ), (p.2 : ℤ)], fun p => p.1 * m + p.2⟩

/-- The 3D voxel grid of a `d × n × m` volume. -/
def grid3 (d n m : ℕ) : Grid (Fin d × Fin n × Fin m) :=
  ⟨fun p => [(p.1 : ℤ), (p.2.1 : ℤ), (p.2.2 : ℤ)],
   fun p => (p.1 * n + p.2.1) * m + p.2.2⟩

/-- Embeds `np.pad(x, ps, mode='constant', constant_values=0)` on a 2D array. -/
def np_pad2 {n m : ℕ} {α : Type} [Zero α] (ps : ℕ) (x : Fin n × Fin m → α) :
    Fin (n + 2 * ps) × Fin (m + 2 * ps) → α :=
  fun p =>
    if h : ps ≤ p.1.val ∧ p.1.val < n + ps ∧ ps ≤ p.2.val ∧ p.2.val < m + ps
    then x (⟨p.1.val - ps, by omega⟩, ⟨p.2.val - ps, by omega⟩)
    else 0

/-- Modelled from the spec: `array_unpad` / `get_padsize` live in
`data_misc.py`, outside the given sources; per §6, `unpad(x, margin)` strips
the constant margin from every axis, with `unpad(pad(x, m), m) == x`. -/
def array_unpad2 {n m : ℕ} {α : Type} (ps : ℕ)
    (y : Fin (n + 2 * ps) × Fin (m + 2 * ps) → α) : Fin n × Fin m → α :=
  fun p => y (⟨p.1.val + ps, by omega⟩, ⟨p.2.val + ps, by omega⟩)

/-- Embeds `np.pad(x, ps, mode='constant', constant_values=0)` on a 3D array. -/
def np_pad3 {d n m : ℕ} {α : Type} [Zero α] (ps : ℕ)
    (x : Fin d × Fin n × Fin m → α) :
    Fin (d + 2 * ps) × Fin (n + 2 * ps) × Fin (m + 2 * ps) → α :=
  fun p =>
    if h : ps ≤ p.1.val ∧ p.1.val < d + ps ∧ ps ≤ p.2.1.val ∧ p.2.1.val < n + ps ∧
        ps ≤ p.2.2.val ∧ p.2.2.val < m + ps
    then x (⟨p.1.val - ps, by omega⟩, ⟨p.2.1.val - ps, by omega⟩,
            ⟨p.2.2.val - ps, by omega⟩)
    else 0

/-- Modelled from the spec: the 3D `array_unpad` (see `array_unpad2`). -/
def array_unpad3 {d n m : ℕ} {α : Type} (ps : ℕ)
    (y : Fin (d + 2 * ps) × Fin (n + 2 * ps) × Fin (m + 2 * ps) → α) :
    Fin d × Fin n × Fin m → α :=
  fun p => y (⟨p.1.val + ps, by omega⟩, ⟨p.2.1.val + ps, by omega⟩,
              ⟨p.2.2.val + ps, by omega⟩)

/-- Embeds `distance_transform` on a 2D label image: optional connected-component
relabeling, optional zero-padding of margin 2 (stripped from both outputs at
the end), then the per-instance EDT loop `dtCore`. -/
noncomputable def distance_transform {n m : ℕ} (label : Fin n × Fin m → ℕ)
    (bg_value : ℝ := -1) (relabel : Bool := true) (padding : Bool := false)
    (res : List ℚ := [1, 1]) (erosion : ℕ := 0) :
    (Fin n × Fin m → ℝ) × (Fin n × Fin m → ℕ) :=
  let lbl := if relabel then label_cc (grid2 n m) label else label
  if padding then
    let c := dtCore (grid2 (n + 2 * 2) (m + 2 * 2)) (np_pad2 2 lbl)
      bg_value res erosion
    (array_unpad2 2 c.1, array_unpad2 2 c.2)
  else dtCore (grid2 n m) lbl bg_value res erosion

/-- Embeds `distance_transform` on a 3D label volume (the `mode='3d'` path of
`edt_instance`). -/
noncomputable def distance_transform3 {d n m : ℕ}
    (label : Fin d × Fin n × Fin m → ℕ) (bg_value : ℝ := -1)
    (relabel : Bool := true) (padding : Bool := false)
    (res : List ℚ := [1, 1]) (erosion : ℕ := 0) :
    (Fin d × Fin n × Fin m → ℝ) × (Fin d × Fin n × Fin m → ℕ) :=
  let lbl := if relabel then label_cc (grid3 d n m) label else label
  if padding then
    let c := dtCore (grid3 (d + 2 * 2) (n + 2 * 2) (m + 2 * 2)) (np_pad3 2 lbl)
      bg_value res erosion
    (array_unpad3 2 c.1, array_unpad3 2 c.2)
  else dtCore (grid3 d n m) lbl bg_value res erosion

/-! ## `skeleton_aware_distance_transform` -/

/-- One iteration of the per-instance loop of
`skeleton_aware_distance_transform`, on the state
(skeleton accumulator, distance map, semantic mask): hole-fill, optional
contour smoothing (reverted if it empties the mask to ≤ 32 pixels, otherwise
either intersected with the filled mask or replacing it), accumulate the
semantic mask, skeletonize, and fuse the skeleton-weighted energy
`(boundary_edt / (skeleton_edt + boundary_edt + eps)) ** alpha` into the
running distance map by pointwise `max` over the instance footprint. -/
noncomputable def sdtStep (g : Grid ι) (label : ι → ℕ) (res : List ℚ)
    (alpha : ℝ) (smooth smooth_skeleton_only : Bool)
    (st : (ι → ℕ) × (ι → ℝ) × (ι → ℕ)) (idx : ℕ) :
    (ι → ℕ) × (ι → ℝ) × (ι → ℕ) :=
  let t := remove_small_holes g (fun p => decide (label p = idx)) 16
  let bt : (ι → Bool) × (ι → Bool) :=
    if smooth then
      let b := smooth_edge g t
      if (Finset.univ.filter (fun p => b p = true)).card ≤ 32 then (t, t)
      else if smooth_skeleton_only then (fun p => b p && t p, t) else (b, b)
    else (t, t)
  let binary := bt.1
  let temp2 := bt.2
  let semantic := fun p => st.2.2 p + (if temp2 p then 1 else 0)
  let skeleton_mask := skeletonize g binary
  let skeleton := fun p => st.1 p + (if skeleton_mask p then 1 else 0)
  let skeleton_edt := edt g (fun p => !skeleton_mask p) res
  let boundary_edt := edt g temp2 res
  let energy := fun p =>
    (boundary_edt p / (skeleton_edt p + boundary_edt p + eps)) ^ alpha
  let distance := fun p =>
    max (st.2.1 p) (energy p * (if temp2 p then (1 : ℝ) else 0))
  (skeleton, distance, semantic)

/-- The body of `skeleton_aware_distance_transform` after relabel/padding,
with the per-instance loop order explicit; returns (distance, semantic) — the
skeleton accumulator is internal. -/
noncomputable def sdtCoreOrd (g : Grid ι) (order : List ℕ) (label : ι → ℕ)
    (bg_value : ℝ) (res : List ℚ) (alpha : ℝ)
    (smooth smooth_skeleton_only : Bool) : (ι → ℝ) × (ι → ℕ) :=
  let st := order.foldl (sdtStep g label res alpha smooth smooth_skeleton_only)
    (fun _ => 0, fun _ => 0, fun _ => 0)
  let distance :=
    if bg_value ≠ 0 then (fun p => if st.2.1 p = 0 then bg_value else st.2.1 p)
    else st.2.1
  (distance, st.2.2)

/-- The body of `skeleton_aware_distance_transform`, looping over the nonzero
instance ids in ascending order. -/
noncomputable def sdtCore (g : Grid ι) (label : ι → ℕ) (bg_value : ℝ)
    (res : List ℚ) (alpha : ℝ) (smooth smooth_skeleton_only : Bool) :
    (ι → ℝ) × (ι → ℕ) :=
  sdtCoreOrd g (dtIndices label) label bg_value res alpha smooth
    smooth_skeleton_only

/-- Embeds `skeleton_aware_distance_transform` on a 2D label image. -/
noncomputable def skeleton_aware_distance_transform {n m : ℕ}
    (label : Fin n × Fin m → ℕ) (bg_value : ℝ := -1) (relabel : Bool := true)
    (padding : Bool := false) (res : List ℚ := [1, 1]) (alpha : ℝ := 8 / 10)
    (smooth : Bool := true) (smooth_skeleton_only : Bool := true) :
    (Fin n × Fin m → ℝ) × (Fin n × Fin m → ℕ) :=
  let lbl := if relabel then label_cc (grid2 n m) label else label
  if padding then
    let c := sdtCore (grid2 (n + 2 * 2) (m + 2 * 2)) (np_pad2 2 lbl)
      bg_value res alpha smooth smooth_skeleton_only
    (array_unpad2 2 c.1, array_unpad2 2 c.2)
  else sdtCore (grid2 n m) lbl bg_value res alpha smooth smooth_skeleton_only

/-! ## `edt_semantic` and `edt_instance` -/

/-- Embeds `_edt_binary_mask`: the all-foreground mask short-circuits to the
constant 5 (`tanh(5) ≈ 0.99991`) without calling the EDT; otherwise the EDT
under the given resolution, divided by the decay `alpha`. -/
noncomputable def _edt_binary_mask (g : Grid ι) (mask : ι → Bool)
    (res : List ℚ) (alpha : ℝ) : ι → ℝ :=
  if ∀ p, mask p = true then fun _ => 5
  else fun p => edt g mask res p / alpha

/-- Embeds `edt_semantic` on a 2D label array: a 2-axis input always takes the
direct (`do_2d`) path with isotropic resolution `(1, 1)`, whatever the valid
mode tag; output is `tanh(fore_edt - back_edt)`. -/
noncomputable def edt_semantic {n m : ℕ} (label : Fin n × Fin m → ℕ)
    (mode : String := "2d") (alpha_fore : ℝ := 8) (alpha_back : ℝ := 50) :
    Except Err (Fin n × Fin m → ℝ) :=
  if mode = "2d" ∨ mode = "3d" then
    .ok (fun p => Real.tanh
      (_edt_binary_mask (grid2 n m) (fun q => decide (label q ≠ 0)) [1, 1]
          alpha_fore p -
       _edt_binary_mask (grid2 n m) (fun q => decide (label q = 0)) [1, 1]
          alpha_back p))
  else .error .assertionError

/-- Embeds `edt_semantic` on a 3D label volume: mode `3d` runs one anisotropic
`(6,1,1)` transform on the volume; mode `2d` runs each leading-axis slice
independently with isotropic `(1,1)` resolution and stacks the results. -/
noncomputable def edt_semantic3 {d n m : ℕ} (label : Fin d × Fin n × Fin m → ℕ)
    (mode : String := "2d") (alpha_fore : ℝ := 8) (alpha_back : ℝ := 50) :
    Except Err (Fin d × Fin n × Fin m → ℝ) :=
  if mode = "2d" ∨ mode = "3d" then
    .ok (if mode = "3d" then
      fun p => Real.tanh
        (_edt_binary_mask (grid3 d n m) (fun q => decide (label q ≠ 0))
            [6, 1, 1] alpha_fore p -
         _edt_binary_mask (grid3 d n m) (fun q => decide (label q = 0))
            [6, 1, 1] alpha_back p)
    else
      fun p => Real.tanh
        (_edt_binary_mask (grid2 n m) (fun q => decide (label (p.1, q) ≠ 0))
            [1, 1] alpha_fore p.2 -
         _edt_binary_mask (grid2 n m) (fun q => decide (label (p.1, q) = 0))
            [1, 1] alpha_back p.2))
  else .error .assertionError

/-- The result of `edt_instance`: the (stacked) distance volume, either raw
or quantized. -/
inductive EdtOut (d n m : ℕ) where
  | realVol (v : Fin d × Fin n × Fin m → ℝ)
  | quantVol (v : Fin d × Fin n × Fin m → ℤ)

/-- Embeds `edt_instance` on a stack of 2D slices: mode `3d` runs one 3D
`distance_transform` forwarding `resolution`; mode `2d` runs
`distance_transform` per slice *without* forwarding `resolution` (so the
default `(1.0, 1.0)` is always used) and stacks the results; then optional
quantization. -/
noncomputable def edt_instance {d n m : ℕ} (label : Fin d × Fin n × Fin m → ℕ)
    (mode : String := "2d") (quantize : Bool := true)
    (res : List ℚ := [1, 1, 1]) (padding : Bool := false) (erosion : ℕ := 0) :
    Except Err (EdtOut d n m) :=
  if mode = "2d" ∨ mode = "3d" then
    .ok (if mode = "3d" then
      let vol := (distance_transform3 label (-1) true padding res erosion).1
      if quantize then .quantVol (fun p => energy_quantize (vol p) 10)
      else .realVol vol
    else
      let vol : Fin d × Fin n × Fin m → ℝ := fun p =>
        (distance_transform (fun q => label (p.1, q)) (-1) true padding
          [1, 1] erosion).1 p.2
      if quantize then .quantVol (fun p => energy_quantize (vol p) 10)
      else .realVol vol)
  else .error .assertionError

/-- The number of `qBins` edges that are `≤ x`, split by the list structure
`-1 :: (interior ++ [1.1])`. -/
lemma qBins_countP_split (levels : ℕ) (x : ℚ) (h1 : -1 ≤ x) (h2 : x < 11 / 10) :
    (qBins ℚ levels).countP (fun b => decide (b ≤ x)) =
      ((List.range levels).map (fun (i : ℕ) => (i : ℚ) / (levels : ℚ))).countP
        (fun b => decide (b ≤ x)) + 1 := by
  have h2' : ¬((11 : ℚ) / 10 ≤ x) := not_le.mpr h2
  simp [qBins, List.countP_cons, List.countP_append, h1, h2']

lemma interior_countP_le (levels : ℕ) (x : ℚ) :
    ((List.range levels).map (fun (i : ℕ) => (i : ℚ) / (levels : ℚ))).countP
      (fun b => decide (b ≤ x)) ≤ levels := by
  refine le_trans (List.countP_le_length _) ?_
  simp

/-- C2, counterexample: at input `2.0` (with the default `levels = 10`) the
quantizer returns class `11`, outside `[0, levels]`; so the output class does
not lie in `[0, levels]` for *every* input energy value. -/
theorem C2_counterexample_energy_quantize_out_of_range :
    10 < energy_quantize (2 : ℚ) 10 := by
  norm_num [energy_quantize, qBins, List.range_succ, List.countP_cons, List.countP_append]

/-- C2 (amended): for any fixed `levels`, `energy_quantize` is a pure total
deterministic function that is monotonic non-decreasing, and its output class
lies in `[0, levels]` for every input in `[-1, 1.1)` (the range of energies the
encoders produce); outside that interval the class can leave `[0, levels]`. -/
theorem C2_energy_quantize_monotone_and_range :
    (∀ (levels : ℕ) (x y : ℚ), x ≤ y →
      energy_quantize x levels ≤ energy_quantize y levels) ∧
    (∀ (levels : ℕ) (x : ℚ), -1 ≤ x → x < 11 / 10 →
      0 ≤ energy_quantize x levels ∧ energy_quantize x levels ≤ levels) := by
  constructor
  · intro levels x y hxy
    unfold energy_quantize
    have hc : (qBins ℚ levels).countP (fun b => decide (b ≤ x)) ≤
        (qBins ℚ levels).countP (fun b => decide (b ≤ y)) := by
      refine List.countP_mono_left ?_
      intro b _ hb
      simp only [decide_eq_true_eq] at hb ⊢
      exact le_trans hb hxy
    exact sub_le_sub_right (by exact_mod_cast hc) 1
  · intro levels x h1 h2
    unfold energy_quantize
    rw [qBins_countP_split levels x h1 h2]
    have hle := interior_countP_le levels x
    constructor
    · omega
    · omega

/-- Closed instance of `C2_energy_quantize_monotone_and_range` discharging its
hypotheses at `levels = 10`, `x = 0`, `y = 1`. -/
theorem C2_energy_quantize_monotone_and_range_witness :
    energy_quantize (0 : ℚ) 10 ≤ energy_quantize (1 : ℚ) 10 ∧
    0 ≤ energy_quantize (1 : ℚ) 10 ∧ energy_quantize (1 : ℚ) 10 ≤ 10 :=
  ⟨C2_energy_quantize_monotone_and_range.1 10 0 1 (by norm_num),
   C2_energy_quantize_monotone_and_range.2 10 1 (by norm_num) (by norm_num)⟩

/-- C3: for every `levels ≥ 1`, `energy_quantize` maps `-1.0` to class `0` and
`1.0` to class `levels`; every value in `[(levels-1)/levels, 1.1)` (including
exactly `1.0`) maps to the top class `levels`. -/
theorem C3_energy_quantize_endpoints (levels : ℕ) (hl : 1 ≤ levels) :
    energy_quantize (-1 : ℚ) levels = 0 ∧
    energy_quantize (1 : ℚ) levels = levels ∧
    ∀ x : ℚ, ((levels : ℚ) - 1) / (levels : ℚ) ≤ x → x < 11 / 10 →
      energy_quantize x levels = levels := by
  have hLpos : (0 : ℚ) < (levels : ℚ) := by exact_mod_cast hl
  have hL1 : (0 : ℚ) ≤ (levels : ℚ) - 1 := by
    have : (1 : ℚ) ≤ (levels : ℚ) := by exact_mod_cast hl
    linarith
  have htop : ∀ x : ℚ, ((levels : ℚ) - 1) / (levels : ℚ) ≤ x → x < 11 / 10 →
      energy_quantize x levels = levels := by
    intro x hx1 hx2
    have h1 : (-1 : ℚ) ≤ x :=
      le_trans (by linarith [div_nonneg hL1 hLpos.le]) hx1
    unfold energy_quantize
    rw [qBins_countP_split levels x h1 hx2]
    have hfull : ((List.range levels).map
        (fun (i : ℕ) => (i : ℚ) / (levels : ℚ))).countP (fun b => decide (b ≤ x)) =
        levels := by
      have := List.countP_eq_length
        (p := fun b : ℚ => decide (b ≤ x))
        (l := (List.range levels).map (fun (i : ℕ) => (i : ℚ) / (levels : ℚ)))
      rw [List.length_map, List.length_range] at this
      refine this.mpr ?_
      intro b hb
      obtain ⟨i, hi, rfl⟩ := List.mem_map.mp hb
      have hiL : i < levels := List.mem_range.mp hi
      have hile : (i : ℚ) ≤ (levels : ℚ) - 1 := by
        have : (i : ℚ) + 1 ≤ (levels : ℚ) := by exact_mod_cast hiL
        linarith
      have : (i : ℚ) / (levels : ℚ) ≤ ((levels : ℚ) - 1) / (levels : ℚ) :=
        (div_le_div_iff_of_pos_right hLpos).mpr hile
      simp only [decide_eq_true_eq]
      exact le_trans this hx1
    rw [hfull]
    push_cast
    ring
  refine ⟨?_, htop 1 (by rw [div_le_one hLpos]; linarith) (by norm_num), htop⟩
  unfold energy_quantize
  rw [qBins_countP_split levels (-1) (le_refl _) (by norm_num)]
  have hzero : ((List.range levels).map
      (fun (i : ℕ) => (i : ℚ) / (levels : ℚ))).countP
      (fun b => decide (b ≤ (-1 : ℚ))) = 0 := by
    refine List.countP_eq_zero.mpr ?_
    intro b hb
    obtain ⟨i, _, rfl⟩ := List.mem_map.mp hb
    simp only [decide_eq_true_eq, not_le]
    exact lt_of_lt_of_le (by norm_num) (div_nonneg (Nat.cast_nonneg i) hLpos.le)
  rw [hzero]
  norm_num

/-- Closed instance of `C3_energy_quantize_endpoints` at `levels = 10` and, for
the top-class clause, `x = 95/100`. -/
theorem C3_energy_quantize_endpoints_witness :
    energy_quantize (-1 : ℚ) 10 = 0 ∧
    energy_quantize (1 : ℚ) 10 = 10 ∧
    energy_quantize (95 / 100 : ℚ) 10 = 10 :=
  ⟨(C3_energy_quantize_endpoints 10 (by norm_num)).1,
   (C3_energy_quantize_endpoints 10 (by norm_num)).2.1,
   (C3_energy_quantize_endpoints 10 (by norm_num)).2.2 (95 / 100)
     (by norm_num) (by norm_num)⟩

/-- Folding the arg-max step from an index already attaining the maximum
stays there. -/
lemma argmax_foldl_fix (f : ℕ → ℝ) (k : ℕ) (hmax : ∀ i, f i ≤ f k) :
    ∀ l : List ℕ, l.foldl (fun best i => if f best < f i then i else best) k = k := by
  intro l
  induction l with
  | nil => rfl
  | cons i t ih =>
    simp only [List.foldl_cons, if_neg (not_lt.mpr (hmax i))]
    exact ih

/-- For a one-hot score vector, folding the arg-max step over a list
containing `k` from a non-`k` start ends at `k`. -/
lemma argmax_foldl_onehot (k : ℕ) :
    ∀ (l : List ℕ) (best : ℕ), best ≠ k → k ∈ l →
      l.foldl (fun best i =>
        if (if best = k then (1 : ℝ) else 0) < (if i = k then (1 : ℝ) else 0)
        then i else best) best = k := by
  intro l
  induction l with
  | nil => intro best _ hm; exact absurd hm (List.not_mem_nil _)
  | cons i t ih =>
    intro best hb hm
    simp only [List.foldl_cons]
    by_cases hik : i = k
    · subst hik
      have hstep : (if (if best = i then (1 : ℝ) else 0) < (if i = i then (1 : ℝ) else 0)
          then i else best) = i := by simp [hb]
      rw [hstep]
      exact argmax_foldl_fix (fun b => if b = i then (1 : ℝ) else 0) i
        (fun j => by by_cases hj : j = i <;> simp [hj]) t
    · have hstep : (if (if best = k then (1 : ℝ) else 0) < (if i = k then (1 : ℝ) else 0)
          then i else best) = best := by simp [hb, hik]
      rw [hstep]
      exact ih best hb (by
        rcases List.mem_cons.mp hm with h | h
        · exact absurd h.symm hik
        · exact h)

/-- The `argmax` of a one-hot vector with the 1 at a valid index `k` is `k`. -/
lemma argmaxIdx_onehot (C k : ℕ) (hk : k < C) :
    argmaxIdx (fun c => if c = k then (1 : ℝ) else 0) C = k := by
  unfold argmaxIdx
  by_cases h0 : (0 : ℕ) = k
  · subst h0
    exact argmax_foldl_fix _ 0 (fun j => by by_cases hj : j = 0 <;> simp [hj]) _
  · exact argmax_foldl_onehot k (List.range C) 0 h0 (List.mem_range.mpr hk)

/-- C4: `decode_quantize` with the `max` policy on a one-hot vector along the
class axis with the 1 at index `k` returns exactly `k / numClasses`, where the
divisor is the class-axis length, for both container layouts (numpy: class
axis first; torch: class axis second). -/
theorem C4_decode_max_onehot (C N k : ℕ) (hk : k < C) :
    (∀ B : ℕ,
      decode_quantize
        (.torch ⟨B, C, N, fun _ c _ => if c = k then 1 else 0⟩) "max" =
        .ok (.torch B N (fun _ _ => (k : ℝ) / (C : ℝ)))) ∧
    decode_quantize
        (.numpy ⟨C, N, fun c _ => if c = k then 1 else 0⟩) "max" =
        .ok (.numpy N (fun _ => (k : ℝ) / (C : ℝ))) := by
  constructor
  · intro B
    simp only [decode_quantize, _decode_quant_torch, PyVal.isTensorOrNdarray]
    norm_num [argmaxIdx_onehot C k hk]
  · simp only [decode_quantize, _decode_quant_numpy, PyVal.isTensorOrNdarray]
    norm_num [argmaxIdx_onehot C k hk]

/-- Closed instance of `C4_decode_max_onehot` at `C = 3`, `N = 1`, `k = 1`,
`B = 1`. -/
theorem C4_decode_max_onehot_witness :
    decode_quantize
        (.torch ⟨1, 3, 1, fun _ c _ => if c = 1 then 1 else 0⟩) "max" =
        .ok (.torch 1 1 (fun _ _ => ((1 : ℕ) : ℝ) / ((3 : ℕ) : ℝ))) ∧
    decode_quantize
        (.numpy ⟨3, 1, fun c _ => if c = 1 then 1 else 0⟩) "max" =
        .ok (.numpy 1 (fun _ => ((1 : ℕ) : ℝ) / ((3 : ℕ) : ℝ))) :=
  ⟨(C4_decode_max_onehot 3 1 1 (by decide)).1 1,
   (C4_decode_max_onehot 3 1 1 (by decide)).2⟩

/-- The inner torch decoder never raises an `AssertionError` itself. -/
lemma decode_quant_torch_no_assert (t : Tensor3) (mode : String) :
    _decode_quant_torch t mode ≠ .error .assertionError := by
  unfold _decode_quant_torch
  by_cases hm : mode = "max"
  · simp [hm]
  · cases hbc : bcastDim t.C 11 with
    | none => simp [hm, hbc]
    | some c2 =>
      by_cases hv : t.B * c2 * t.N = t.B * t.C * t.N <;> simp [hm, hbc, hv]

/-- The inner numpy decoder never raises an `AssertionError` itself. -/
lemma decode_quant_numpy_no_assert (a : Array2) (mode : String) :
    _decode_quant_numpy a mode ≠ .error .assertionError := by
  unfold _decode_quant_numpy
  by_cases hm : mode = "max"
  · simp [hm]
  · cases hbc : bcastDim a.C 11 with
    | none => simp [hm, hbc]
    | some c2 =>
      by_cases hv : c2 * a.N = a.C * a.N <;> simp [hm, hbc, hv]

/-- C10: the `mean` policy multiplies the softmaxed class axis against a fixed
vector of 11 bin centers, so it succeeds only when the class axis has exactly
11 entries (for a nonempty input); whenever the class-axis length is neither
11 nor 1, the softmax-times-bins product itself has broadcast-incompatible
shapes and the call raises a `ValueError` — a precondition the tag asserts at
the public entry point do not check. -/
theorem C10_mean_decode_requires_eleven_classes :
    (∀ C : ℕ, C ≠ 11 → C ≠ 1 → bcastDim C 11 = none) ∧
    (∀ a : Array2, a.C ≠ 11 → a.C ≠ 1 →
      decode_quantize (.numpy a) "mean" = .error .valueError) ∧
    (∀ t : Tensor3, t.C ≠ 11 → t.C ≠ 1 →
      decode_quantize (.torch t) "mean" = .error .valueError) ∧
    (∀ a : Array2, 1 ≤ a.N →
      ((decode_quantize (.numpy a) "mean").isOk = true ↔ a.C = 11)) ∧
    (∀ t : Tensor3, 1 ≤ t.B → 1 ≤ t.N →
      ((decode_quantize (.torch t) "mean").isOk = true ↔ t.C = 11)) := by
  have hbc : ∀ C : ℕ, C ≠ 11 → C ≠ 1 → bcastDim C 11 = none := by
    intro C h11 h1
    simp [bcastDim, h11, h1]
  refine ⟨hbc, ?_, ?_, ?_, ?_⟩
  · intro a h11 h1
    simp [decode_quantize, PyVal.isTensorOrNdarray, _decode_quant_numpy, hbc a.C h11 h1]
  · intro t h11 h1
    simp [decode_quantize, PyVal.isTensorOrNdarray, _decode_quant_torch, hbc t.C h11 h1]
  · intro a hN
    by_cases h11 : a.C = 11
    · simp [decode_quantize, PyVal.isTensorOrNdarray, _decode_quant_numpy,
        bcastDim, h11, Except.isOk, Except.toBool]
    · by_cases h1 : a.C = 1
      · have hv : ¬(11 * a.N = a.N) := by omega
        simp [decode_quantize, PyVal.isTensorOrNdarray, _decode_quant_numpy,
          bcastDim, h1, h11, hv, Except.isOk, Except.toBool]
      · simp [decode_quantize, PyVal.isTensorOrNdarray, _decode_quant_numpy,
          hbc a.C h11 h1, h11, Except.isOk, Except.toBool]
  · intro t hB hN
    by_cases h11 : t.C = 11
    · simp [decode_quantize, PyVal.isTensorOrNdarray, _decode_quant_torch,
        bcastDim, h11, Except.isOk, Except.toBool]
    · by_cases h1 : t.C = 1
      · have hv : ¬(t.B * 11 = t.B ∨ t.N = 0) := by omega
        simp [decode_quantize, PyVal.isTensorOrNdarray, _decode_quant_torch,
          bcastDim, h1, h11, hv, Except.isOk, Except.toBool]
      · simp [decode_quantize, PyVal.isTensorOrNdarray, _decode_quant_torch,
          hbc t.C h11 h1, h11, Except.isOk, Except.toBool]

/-- Closed instance of `C10_mean_decode_requires_eleven_classes`: a 5-class
numpy input raises `ValueError`, an 11-class one succeeds. -/
theorem C10_mean_decode_requires_eleven_classes_witness :
    decode_quantize (.numpy ⟨5, 1, fun _ _ => 0⟩) "mean" = .error .valueError ∧
    ((decode_quantize (.numpy ⟨11, 1, fun _ _ => 0⟩) "mean").isOk = true ↔
      (11 : ℕ) = 11) :=
  ⟨C10_mean_decode_requires_eleven_classes.2.1 ⟨5, 1, fun _ _ => 0⟩
      (by decide) (by decide),
   C10_mean_decode_requires_eleven_classes.2.2.2.1 ⟨11, 1, fun _ _ => 0⟩
      (by decide)⟩

/-- Lemma: `decode_quantize` fails with an `AssertionError` exactly when the mode tag
or the container type is unsupported. -/
lemma decode_quantize_assert_iff (output : PyVal) (mode : String) :
    decode_quantize output mode = .error .assertionError ↔
      ¬(output.isTensorOrNdarray = true ∧ (mode = "max" ∨ mode = "mean")) := by
  by_cases hm : mode = "max" ∨ mode = "mean"
  · cases output with
    | torch t =>
      simp only [decode_quantize, PyVal.isTensorOrNdarray]
      simp [hm, decode_quant_torch_no_assert t mode]
    | numpy a =>
      simp only [decode_quantize, PyVal.isTensorOrNdarray]
      simp [hm, decode_quant_numpy_no_assert a mode]
    | otherObject => simp [decode_quantize, PyVal.isTensorOrNdarray]
  · cases output <;> simp [decode_quantize, PyVal.isTensorOrNdarray, hm]

/-- C9: in `2d` mode `edt_instance` never forwards its `resolution` argument
to the per-slice `distance_transform` (which therefore uses its default
`(1.0, 1.0)`), so the output is identical for any two resolution vectors. -/
theorem C9_edt_instance_2d_resolution_independent {d n m : ℕ}
    (label : Fin d × Fin n × Fin m → ℕ) (quantize : Bool) (r1 r2 : List ℚ)
    (padding : Bool) (erosion : ℕ) :
    edt_instance label "2d" quantize r1 padding erosion =
      edt_instance label "2d" quantize r2 padding erosion := by
  have h3 : ("2d" : String) ≠ "3d" := by decide
  simp [edt_instance, h3]

/-- Round trip: `unpad(pad(x, m), m) == x`, exactly, for every 2D array and margin. -/
lemma array_unpad2_np_pad2 {α : Type} [Zero α] {n m : ℕ} (ps : ℕ)
    (x : Fin n × Fin m → α) : array_unpad2 ps (np_pad2 ps x) = x := by
  funext p
  obtain ⟨i, j⟩ := p
  have hi := i.isLt
  have hj := j.isLt
  show np_pad2 ps x (⟨i.val + ps, by omega⟩, ⟨j.val + ps, by omega⟩) = x (i, j)
  unfold np_pad2
  have hc : ps ≤ i.val + ps ∧ i.val + ps < n + ps ∧
      ps ≤ j.val + ps ∧ j.val + ps < m + ps := by omega
  rw [dif_pos hc]
  congr 1
  rw [Prod.ext_iff]
  constructor
  · apply Fin.ext
    simp
  · apply Fin.ext
    simp

/-- C6: with `padding=True`, `distance_transform` and
`skeleton_aware_distance_transform` zero-pad every axis by margin 2 before
processing and strip the same margin from both returned arrays at the end
(so, at the type level, both outputs are indexed exactly like the input), and
the round-trip identity `unpad(pad(X, m), m) == X` holds exactly for every
array and margin. -/
theorem C6_padding_strips_margin_exactly :
    (∀ (α : Type) [Zero α] (n m ps : ℕ) (x : Fin n × Fin m → α),
      array_unpad2 ps (np_pad2 ps x) = x) ∧
    (∀ (n m : ℕ) (label : Fin n × Fin m → ℕ) (bg : ℝ) (rl : Bool)
        (res : List ℚ) (ero : ℕ),
      distance_transform label bg rl true res ero =
        (array_unpad2 2 ((dtCore (grid2 (n + 2 * 2) (m + 2 * 2))
            (np_pad2 2 (if rl then label_cc (grid2 n m) label else label))
            bg res ero).1),
         array_unpad2 2 ((dtCore (grid2 (n + 2 * 2) (m + 2 * 2))
            (np_pad2 2 (if rl then label_cc (grid2 n m) label else label))
            bg res ero).2))) ∧
    (∀ (n m : ℕ) (label : Fin n × Fin m → ℕ) (bg : ℝ) (rl : Bool)
        (res : List ℚ) (alpha : ℝ) (sm sso : Bool),
      skeleton_aware_distance_transform label bg rl true res alpha sm sso =
        (array_unpad2 2 ((sdtCore (grid2 (n + 2 * 2) (m + 2 * 2))
            (np_pad2 2 (if rl then label_cc (grid2 n m) label else label))
            bg res alpha sm sso).1),
         array_unpad2 2 ((sdtCore (grid2 (n + 2 * 2) (m + 2 * 2))
            (np_pad2 2 (if rl then label_cc (grid2 n m) label else label))
            bg res alpha sm sso).2))) := by
  refine ⟨fun α _ n m ps x => array_unpad2_np_pad2 ps x, ?_, ?_⟩
  · intro n m label bg rl res ero
    rfl
  · intro n m label bg rl res alpha sm sso
    rfl

/-- Relabeling `label_cc` fixes an all-background label map. -/
lemma label_cc_all_zero (g : Grid ι) (label : ι → ℕ) (h : ∀ p, label p = 0) :
    label_cc g label = label := by
  funext p
  simp [label_cc, h p]

/-- On an all-background label map the instance-id list is empty. -/
lemma dtIndices_all_zero (label : ι → ℕ) (h : ∀ p, label p = 0) :
    dtIndices label = [] := by
  unfold dtIndices npUnique
  rcases isEmpty_or_nonempty ι with hE | hN
  · rw [Finset.univ_eq_empty, Finset.image_empty, Finset.sort_empty]
  · have himg : Finset.univ.image label = {0} := by
      apply Finset.ext
      intro v
      simp only [Finset.mem_image, Finset.mem_singleton]
      constructor
      · rintro ⟨p, _, rfl⟩
        exact h p
      · rintro rfl
        obtain ⟨p⟩ := hN
        exact ⟨p, Finset.mem_univ p, h p⟩
    rw [himg, Finset.sort_singleton]
    rfl

/-- On an all-background label map `dtCore` skips the loop and substitutes
`bg_value = -1` everywhere in the distance map. -/
lemma dtCore_all_zero (g : Grid ι) (label : ι → ℕ) (h : ∀ p, label p = 0)
    (res : List ℚ) (ero : ℕ) :
    dtCore g label (-1) res ero = (fun _ => (-1 : ℝ), fun _ => 0) := by
  unfold dtCore dtCoreOrd
  rw [dtIndices_all_zero label h]
  simp only [List.foldl_nil]
  rw [if_pos (by norm_num : (-1 : ℝ) ≠ 0)]
  refine Prod.ext_iff.mpr ⟨funext fun p => ?_, rfl⟩
  simp

/-- Zero-padding an all-zero label map yields an all-zero label map. -/
lemma np_pad2_all_zero {n m : ℕ} (ps : ℕ) (label : Fin n × Fin m → ℕ)
    (h : ∀ p, label p = 0) : ∀ p, np_pad2 ps label p = 0 := by
  intro p
  unfold np_pad2
  split
  · apply h
  · rfl

/-- C7: on an entirely-background label map, `distance_transform` with the
default `bg_value = -1` returns the constant `-1` distance map and the
constant `0` semantic mask, for any relabel/padding flags, resolution and
erosion radius: the all-background short-circuit skips the instance loop and
the `bg_value` substitution then replaces every (still zero) pixel. -/
theorem C7_distance_transform_all_background {n m : ℕ}
    (label : Fin n × Fin m → ℕ) (rl pd : Bool) (res : List ℚ) (ero : ℕ)
    (h : ∀ p, label p = 0) :
    distance_transform label (-1) rl pd res ero =
      (fun _ => (-1 : ℝ), fun _ => 0) := by
  unfold distance_transform
  have hlbl : (if rl then label_cc (grid2 n m) label else label) = label := by
    cases rl
    · rfl
    · exact label_cc_all_zero (grid2 n m) label h
  rw [hlbl]
  cases pd
  · simp only [Bool.false_eq_true, if_false]
    exact dtCore_all_zero (grid2 n m) label h res ero
  · simp only [if_true]
    rw [dtCore_all_zero (grid2 (n + 2 * 2) (m + 2 * 2)) (np_pad2 2 label)
      (np_pad2_all_zero 2 label h) res ero]
    rfl

/-- Closed instance of `C7_distance_transform_all_background` on a 4×4
all-zero label map with the default flags. -/
theorem C7_distance_transform_all_background_witness :
    distance_transform (fun _ : Fin 4 × Fin 4 => 0) (-1) true false [1, 1] 0 =
      (fun _ => (-1 : ℝ), fun _ => 0) :=
  C7_distance_transform_all_background (fun _ => 0) true false [1, 1] 0
    (fun _ => rfl)

/-- On an all-foreground label, the foreground `_edt_binary_mask`
short-circuits to the constant 5. -/
lemma edt_binary_mask_all_fore (g : Grid ι) (mask : ι → Bool) (res : List ℚ)
    (alpha : ℝ) (h : ∀ p, mask p = true) :
    _edt_binary_mask g mask res alpha = fun _ => 5 := by
  unfold _edt_binary_mask
  exact if_pos h

/-- At a cell of an inhabited grid, the background `_edt_binary_mask` of an
all-foreground label is 0: the background mask is all-false, so its EDT
vanishes everywhere. -/
lemma edt_binary_mask_all_false_at (g : Grid ι) (mask : ι → Bool)
    (res : List ℚ) (alpha : ℝ) (p : ι) (h : ∀ q, mask q = false) :
    _edt_binary_mask g mask res alpha p = 0 := by
  unfold _edt_binary_mask
  rw [if_neg (not_forall.mpr ⟨p, by simp [h p]⟩)]
  show edt g mask res p / alpha = 0
  unfold edt
  rw [if_neg (by simp [h p])]
  exact zero_div alpha

/-- C5: for every label whose foreground mask is entirely foreground,
`edt_semantic` returns the constant `tanh 5` array (≈ 0.9999) at every cell:
the all-foreground short-circuit yields the constant 5 for the foreground
half, the all-false background mask has an identically-zero EDT, and
`tanh(5 - 0) = tanh 5`.  Stated for 2D inputs and for 3D inputs in both
slice-wise (`2d`) and volumetric (`3d`) modes. -/
theorem C5_edt_semantic_all_foreground :
    (∀ (n m : ℕ) (label : Fin n × Fin m → ℕ) (mode : String)
        (af ab : ℝ), (mode = "2d" ∨ mode = "3d") → ab ≠ 0 →
        (∀ p, label p ≠ 0) →
      edt_semantic label mode af ab = .ok (fun _ => Real.tanh 5)) ∧
    (∀ (d n m : ℕ) (label : Fin d × Fin n × Fin m → ℕ) (mode : String)
        (af ab : ℝ), (mode = "2d" ∨ mode = "3d") → ab ≠ 0 →
        (∀ p, label p ≠ 0) →
      edt_semantic3 label mode af ab = .ok (fun _ => Real.tanh 5)) := by
  constructor
  · intro n m label mode af ab hmode hab hfore
    unfold edt_semantic
    rw [if_pos hmode]
    congr 1
    funext p
    rw [edt_binary_mask_all_fore (grid2 n m) _ [1, 1] af
        (fun q => decide_eq_true (hfore q)),
      edt_binary_mask_all_false_at (grid2 n m) _ [1, 1] ab p
        (fun q => by simp [hfore q])]
    norm_num
  · intro d n m label mode af ab hmode hab hfore
    unfold edt_semantic3
    rw [if_pos hmode]
    congr 1
    by_cases h3 : mode = "3d"
    · rw [if_pos h3]
      funext p
      rw [edt_binary_mask_all_fore (grid3 d n m) _ [6, 1, 1] af
          (fun q => decide_eq_true (hfore q)),
        edt_binary_mask_all_false_at (grid3 d n m) _ [6, 1, 1] ab p
          (fun q => by simp [hfore q])]
      norm_num
    · rw [if_neg h3]
      funext p
      rw [edt_binary_mask_all_fore (grid2 n m) _ [1, 1] af
          (fun q => decide_eq_true (hfore (p.1, q))),
        edt_binary_mask_all_false_at (grid2 n m) _ [1, 1] ab p.2
          (fun q => by simp [hfore (p.1, q)])]
      norm_num

/-- Closed instance of `C5_edt_semantic_all_foreground` on a 2×2 all-ones
label with the default mode and decay parameters. -/
theorem C5_edt_semantic_all_foreground_witness :
    edt_semantic (fun _ : Fin 2 × Fin 2 => 1) "2d" 8 50 =
      .ok (fun _ => Real.tanh 5) :=
  C5_edt_semantic_all_foreground.1 2 2 (fun _ => 1) "2d" 8 50 (Or.inl rfl)
    (by norm_num) (fun _ => one_ne_zero)

/-- C8: `decode_quantize` fails immediately with an `AssertionError` (before
any computation) exactly when its mode tag is not one of `'max'`/`'mean'` or
its input container is neither a torch tensor nor a numpy array; and
`edt_semantic` (2D and 3D inputs) and `edt_instance` fail immediately exactly
when their mode tag is not one of `'2d'`/`'3d'` — for supported tags the
checks pass and the computation proceeds. -/
theorem C8_tag_asserts :
    (∀ (output : PyVal) (mode : String),
      decode_quantize output mode = .error .assertionError ↔
        ¬(output.isTensorOrNdarray = true ∧ (mode = "max" ∨ mode = "mean"))) ∧
    (∀ (n m : ℕ) (label : Fin n × Fin m → ℕ) (mode : String) (af ab : ℝ),
      (edt_semantic label mode af ab).isOk = true ↔
        (mode = "2d" ∨ mode = "3d")) ∧
    (∀ (d n m : ℕ) (label : Fin d × Fin n × Fin m → ℕ) (mode : String)
        (af ab : ℝ),
      (edt_semantic3 label mode af ab).isOk = true ↔
        (mode = "2d" ∨ mode = "3d")) ∧
    (∀ (d n m : ℕ) (label : Fin d × Fin n × Fin m → ℕ) (mode : String)
        (q : Bool) (res : List ℚ) (pd : Bool) (ero : ℕ),
      (edt_instance label mode q res pd ero).isOk = true ↔
        (mode = "2d" ∨ mode = "3d")) := by
  refine ⟨decode_quantize_assert_iff, ?_, ?_, ?_⟩
  · intro n m label mode af ab
    by_cases hm : mode = "2d" ∨ mode = "3d" <;>
      simp [edt_semantic, hm, Except.isOk, Except.toBool]
  · intro d n m label mode af ab
    by_cases hm : mode = "2d" ∨ mode = "3d" <;>
      simp [edt_semantic3, hm, Except.isOk, Except.toBool]
  · intro d n m label mode q res pd ero
    by_cases hm : mode = "2d" ∨ mode = "3d" <;>
      simp [edt_instance, hm, Except.isOk, Except.toBool]

/-- Folding a pairwise-swappable step over a list is invariant under
permutation of the list. -/
lemma foldl_of_swap {β σ : Type} (f : σ → β → σ)
    (hf : ∀ s a b, f (f s a) b = f (f s b) a) {l1 l2 : List β}
    (hp : l1.Perm l2) : ∀ s, l1.foldl f s = l2.foldl f s := by
  induction hp with
  | nil => intro s; rfl
  | cons x _ ih =>
    intro s
    simp only [List.foldl_cons]
    exact ih _
  | swap x y l =>
    intro s
    simp only [List.foldl_cons]
    rw [hf]
  | trans _ _ ih1 ih2 =>
    intro s
    rw [ih1, ih2]

/-- The `max` operation is right-commutative. -/
lemma max_right_swap {α : Type} [LinearOrder α] (x y z : α) :
    max (max x y) z = max (max x z) y := by
  rw [max_assoc, max_comm y z, ← max_assoc]

/-- Two consecutive `distance_transform` loop iterations commute: each
instance's hole-filled/eroded mask and normalized energy depend only on its
own id, the semantic accumulator is additive, and `max`-fusion of the
distance map is right-commutative. -/
lemma dtStep_swap (g : Grid ι) (label : ι → ℕ) (res : List ℚ) (ero : ℕ)
    (st : (ι → ℝ) × (ι → ℕ)) (a b : ℕ) :
    dtStep g label res ero (dtStep g label res ero st a) b =
      dtStep g label res ero (dtStep g label res ero st b) a := by
  unfold dtStep
  refine Prod.ext_iff.mpr ⟨funext fun p => ?_, funext fun p => ?_⟩
  · exact max_right_swap _ _ _
  · exact add_right_comm _ _ _

/-- Two consecutive `skeleton_aware_distance_transform` loop iterations
commute, on the (skeleton, distance, semantic) state. -/
lemma sdtStep_swap (g : Grid ι) (label : ι → ℕ) (res : List ℚ) (alpha : ℝ)
    (sm sso : Bool) (st : (ι → ℕ) × (ι → ℝ) × (ι → ℕ)) (a b : ℕ) :
    sdtStep g label res alpha sm sso (sdtStep g label res alpha sm sso st a) b =
      sdtStep g label res alpha sm sso
        (sdtStep g label res alpha sm sso st b) a := by
  unfold sdtStep
  refine Prod.ext_iff.mpr ⟨funext fun p => ?_,
    Prod.ext_iff.mpr ⟨funext fun p => ?_, funext fun p => ?_⟩⟩
  · exact add_right_comm _ _ _
  · exact max_right_swap _ _ _
  · exact add_right_comm _ _ _

/-- C1: the fused outputs of `distance_transform` and
`skeleton_aware_distance_transform` are independent of the order in which the
instance ids are processed — running the per-instance loop (`dtCoreOrd` /
`sdtCoreOrd`) over any permutation of the nonzero instance ids yields exactly
the body `dtCore` / `sdtCore` of the two transforms, which processes ids in
ascending order: pixel-wise `max` fusion is commutative and associative and
each instance's energy depends only on its own mask. -/
theorem C1_instance_loop_order_irrelevant :
    (∀ (ι : Type) [Fintype ι] [DecidableEq ι] (g : Grid ι) (label : ι → ℕ)
        (bg : ℝ) (res : List ℚ) (ero : ℕ) (order : List ℕ),
      order.Perm (dtIndices label) →
      dtCoreOrd g order label bg res ero = dtCore g label bg res ero) ∧
    (∀ (ι : Type) [Fintype ι] [DecidableEq ι] (g : Grid ι) (label : ι → ℕ)
        (bg : ℝ) (res : List ℚ) (alpha : ℝ) (sm sso : Bool)
        (order : List ℕ),
      order.Perm (dtIndices label) →
      sdtCoreOrd g order label bg res alpha sm sso =
        sdtCore g label bg res alpha sm sso) := by
  constructor
  · intro ι _ _ g label bg res ero order hperm
    unfold dtCore dtCoreOrd
    rw [foldl_of_swap (dtStep g label res ero)
      (fun s a b => dtStep_swap g label res ero s a b) hperm]
  · intro ι _ _ g label bg res alpha sm sso order hperm
    unfold sdtCore sdtCoreOrd
    rw [foldl_of_swap (sdtStep g label res alpha sm sso)
      (fun s a b => sdtStep_swap g label res alpha sm sso s a b) hperm]

/-- Closed instance of `C1_instance_loop_order_irrelevant`: on a concrete
2×2 two-instance label map, running both loops over the reversed id list
gives the ascending-order result. -/
theorem C1_instance_loop_order_irrelevant_witness :
    dtCoreOrd (grid2 2 2)
        ((dtIndices (fun p : Fin 2 × Fin 2 => if p.1.val = 0 then 1 else 2)).reverse)
        (fun p : Fin 2 × Fin 2 => if p.1.val = 0 then 1 else 2) (-1) [1, 1] 0 =
      dtCore (grid2 2 2)
        (fun p : Fin 2 × Fin 2 => if p.1.val = 0 then 1 else 2) (-1) [1, 1] 0 ∧
    sdtCoreOrd (grid2 2 2)
        ((dtIndices (fun p : Fin 2 × Fin 2 => if p.1.val = 0 then 1 else 2)).reverse)
        (fun p : Fin 2 × Fin 2 => if p.1.val = 0 then 1 else 2) (-1) [1, 1]
        (8 / 10) true true =
      sdtCore (grid2 2 2)
        (fun p : Fin 2 × Fin 2 => if p.1.val = 0 then 1 else 2) (-1) [1, 1]
        (8 / 10) true true :=
  ⟨C1_instance_loop_order_irrelevant.1 (Fin 2 × Fin 2) (grid2 2 2)
      (fun p => if p.1.val = 0 then 1 else 2) (-1) [1, 1] 0 _
      (List.reverse_perm _),
   C1_instance_loop_order_irrelevant.2 (Fin 2 × Fin 2) (grid2 2 2)
      (fun p => if p.1.val = 0 then 1 else 2) (-1) [1, 1] (8 / 10) true true _
      (List.reverse_perm _)⟩
